import Mathlib

/-!
Verification of the VPC-migration MCP server (`src/build/migration.js`).

Strings are modelled as `List Char`.  The JavaScript string operations used by
the handlers (`String.prototype.includes`, `String.prototype.replace` with a
string pattern, regex scanning for the two patterns appearing in the source,
`String.prototype.trim`) are embedded as executable functions below, and each
tool handler is a pure Lean function translated from its handler in the source.
Filesystem effects (`fs.access`, `fs.readFile`) are modelled by passing the
outcome of the call (`Except` of an error message) as an argument.
-/

/-- `isPre p l` is true iff `p` is a prefix of `l` (character-wise). -/
def isPre : List Char → List Char → Bool
  | [], _ => true
  | _ :: _, [] => false
  | a :: p, b :: l => a == b && isPre p l

/-- JS `hay.includes(needle)`: scan every start position for a prefix match. -/
def includesL : List Char → List Char → Bool
  | [], needle => isPre needle []
  | c :: t, needle => isPre needle (c :: t) || includesL t needle

/-- `endsWithL l s` is true iff `s` is a suffix of `l`. -/
def endsWithL (l s : List Char) : Bool := isPre s.reverse l.reverse

/-- `HasSub hay needle`: `needle` occurs contiguously inside `hay`. -/
def HasSub (hay needle : List Char) : Prop := ∃ x y, hay = x ++ needle ++ y

/-- Number of start positions of `hay` at which `needle` occurs. -/
def countSub : List Char → List Char → Nat
  | [], needle => if isPre needle [] then 1 else 0
  | c :: t, needle => (if isPre needle (c :: t) then 1 else 0) + countSub t needle

/-- `stripPre p l` removes the literal prefix `p` from `l`, failing if absent. -/
def stripPre : List Char → List Char → Option (List Char)
  | [], l => some l
  | _ :: _, [] => none
  | a :: p, b :: l => if a == b then stripPre p l else none

/-- The character class `\s` of JavaScript regular expressions (also the set
trimmed by `String.prototype.trim`). -/
def jsSpace (c : Char) : Bool :=
  let n := c.toNat
  n == 9 || n == 10 || n == 11 || n == 12 || n == 13 || n == 32 || n == 160 ||
    n == 5760 || (8192 ≤ n && n ≤ 8202) || n == 8232 || n == 8233 ||
    n == 8239 || n == 8287 || n == 12288 || n == 65279

/-- JS `s.trim()`: drop `\s` characters from both ends. -/
def trimL (l : List Char) : List Char :=
  ((l.dropWhile jsSpace).reverse.dropWhile jsSpace).reverse

theorem isPre_iff (p : List Char) : ∀ l, isPre p l = true ↔ ∃ t, l = p ++ t := by
  induction p with
  | nil => intro l; simp [isPre]
  | cons a p ih =>
    intro l
    cases l with
    | nil =>
      simp [isPre]
    | cons b l =>
      simp only [isPre, Bool.and_eq_true, beq_iff_eq, ih, List.cons_append]
      constructor
      · rintro ⟨rfl, t, rfl⟩; exact ⟨t, rfl⟩
      · rintro ⟨t, ht⟩
        injection ht with h1 h2
        exact ⟨h1.symm, t, h2⟩

theorem endsWith_iff (l s : List Char) : endsWithL l s = true ↔ ∃ w, l = w ++ s := by
  unfold endsWithL
  rw [isPre_iff]
  constructor
  · rintro ⟨t, ht⟩
    refine ⟨t.reverse, ?_⟩
    have := congrArg List.reverse ht
    simpa using this
  · rintro ⟨w, rfl⟩
    exact ⟨w.reverse, by simp⟩

theorem stripPre_eq {p l r : List Char} (h : stripPre p l = some r) : l = p ++ r := by
  induction p generalizing l with
  | nil => simpa [stripPre] using h
  | cons a p ih =>
    cases l with
    | nil => simp [stripPre] at h
    | cons b l =>
      by_cases hab : a == b
      · have hb : a = b := by simpa using hab
        rw [stripPre, if_pos hab] at h
        subst hb
        simp [ih h]
      · rw [stripPre, if_neg hab] at h
        cases h

theorem hasSub_nil_iff (n : List Char) : HasSub [] n ↔ n = [] := by
  constructor
  · rintro ⟨x, y, h⟩
    rcases List.append_eq_nil.mp h.symm with ⟨h1, h2⟩
    rcases List.append_eq_nil.mp h1 with ⟨_, h3⟩
    exact h3
  · rintro rfl; exact ⟨[], [], rfl⟩

theorem hasSub_cons_iff (c : Char) (t n : List Char) :
    HasSub (c :: t) n ↔ (∃ v, c :: t = n ++ v) ∨ HasSub t n := by
  constructor
  · rintro ⟨x, y, h⟩
    cases x with
    | nil => exact Or.inl ⟨y, by simpa using h⟩
    | cons d x' =>
      rw [List.cons_append] at h
      injection h with _ h2
      exact Or.inr ⟨x', y, h2⟩
  · rintro (⟨v, hv⟩ | ⟨x, y, hxy⟩)
    · exact ⟨[], v, by simpa using hv⟩
    · exact ⟨c :: x, y, by rw [hxy]; simp⟩

theorem includes_iff (hay : List Char) : ∀ n, includesL hay n = true ↔ HasSub hay n := by
  induction hay with
  | nil =>
    intro n
    rw [hasSub_nil_iff]
    cases n <;> simp [includesL, isPre]
  | cons c t ih =>
    intro n
    rw [includesL, Bool.or_eq_true, isPre_iff, ih, hasSub_cons_iff]

instance (hay n : List Char) : Decidable (HasSub hay n) :=
  decidable_of_iff _ (includes_iff hay n)

/-! ### Constants translated from `src/build/migration.js` -/

/-- Key `"subnet"` tested by `get-vpc-migration-recommendations`. -/
def subnetKeyS : String := "subnet"

/-- Key `"cidr"` tested by `get-vpc-migration-recommendations` and `refactor-vpc`. -/
def cidrKeyS : String := "cidr"

/-- Key `"ipAddress"` tested by `get-vpc-migration-recommendations`. -/
def ipAddressKeyS : String := "ipAddress"

/-- First canned subnet recommendation string. -/
def recSubnet1S : String := "Subnet Configuration: define these subnet as new SubnetV2 with same availability zone, CIDR range and subnet type, pass in vpc as prop"

/-- Second canned subnet recommendation string. -/
def recSubnet2S : String := "IPv4 CIDR block for subnet is defined using prop ipv4CidrBlock"

/-- Third canned subnet recommendation string. -/
def recSubnet3S : String := "Ipv4 CIDR block to defined as new IpCidr(<ipaddress>)"

/-- Canned IP-addressing recommendation string. -/
def recIpS : String := "IP Addressing: Migrate to property primaryAddressBlock: IpAddresses.ipv4(cidr)"

/-- Fallback recommendation pushed when no pattern matched. -/
def recBasicS : String := "Basic VPC Migration: Use the updated VPC constructor with required parameters"

/-- `get-vpc-migration-recommendations`: the `migrationApproaches` list built by
the handler from the substring checks on `cdkCode`. -/
def recommendList (cdkCode : List Char) : List (List Char) :=
  let hasSubnets := includesL cdkCode (subnetKeyS.data)
  let hasIpAddresses := includesL cdkCode (cidrKeyS.data) || includesL cdkCode (ipAddressKeyS.data)
  let recommendations :=
    (if hasSubnets then [recSubnet1S.data, recSubnet2S.data, recSubnet3S.data] else []) ++
    (if hasIpAddresses then [recIpS.data] else [])
  if recommendations.length = 0 then [recBasicS.data] else recommendations

/-- A `{issue, severity, recommendation}` record pushed by `validate-vpc-migration`. -/
structure Issue where
  issue : List Char
  severity : List Char
  recommendation : List Char
deriving DecidableEq

/-- Marker `"VpcV2"` checked in the migrated code. -/
def vpcV2KeyS : String := "VpcV2"

/-- Marker `"cidrMask"` checked in the original code. -/
def cidrMaskKeyS : String := "cidrMask"

/-- Marker `"primaryAddressBlock"` checked in the migrated code. -/
def pabKeyS : String := "primaryAddressBlock"

/-- Marker `"subnetConfiguration"` checked in the original code. -/
def subnetConfKeyS : String := "subnetConfiguration"

/-- Marker `"SubnetV2"` checked in the migrated code. -/
def subnetV2KeyS : String := "SubnetV2"

/-- Marker `"natGateways"` checked in the original code. -/
def natGatewaysKeyS : String := "natGateways"

/-- Marker `"addNatGateway"` checked in the migrated code. -/
def addNatGatewayKeyS : String := "addNatGateway"

/-- Issue text of the missing-VpcV2 record. -/
def missingVpcV2S : String := "Missing VpcV2 construct"

/-- Issue record pushed when `migratedCode` lacks `"VpcV2"`. -/
def missingVpcV2Issue : Issue :=
  ⟨missingVpcV2S.data, ("Error").data,
    ("Replace Vpc with VpcV2 from @aws-cdk/aws-ec2-alpha").data⟩

/-- Issue record pushed when IP addressing was not migrated. -/
def ipAddressingIssue : Issue :=
  ⟨("IP addressing not properly migrated").data, ("Error").data,
    ("Use primaryAddressBlock: IpAddresses.ipv4() instead of cidrMask").data⟩

/-- Issue record pushed when the subnet configuration was not migrated. -/
def subnetIssue : Issue :=
  ⟨("Subnet configuration not properly migrated").data, ("Warning").data,
    ("Use SubnetV2 constructs instead of subnetConfiguration array").data⟩

/-- Issue record pushed when the NAT gateway configuration was not migrated. -/
def natGatewayIssue : Issue :=
  ⟨("NAT gateway configuration not properly migrated").data, ("Warning").data,
    ("Use vpc.addNatGateway() method instead of natGateways property").data⟩

/-- `validate-vpc-migration`: the `validationResults` list, in push order. -/
def validateIssues (originalCode migratedCode : List Char) : List Issue :=
  (if !includesL migratedCode (vpcV2KeyS.data) then [missingVpcV2Issue] else []) ++
  (if includesL originalCode (cidrMaskKeyS.data) && !includesL migratedCode (pabKeyS.data)
    then [ipAddressingIssue] else []) ++
  (if includesL originalCode (subnetConfKeyS.data) && !includesL migratedCode (subnetV2KeyS.data)
    then [subnetIssue] else []) ++
  (if includesL originalCode (natGatewaysKeyS.data) && !includesL migratedCode (addNatGatewayKeyS.data)
    then [natGatewayIssue] else [])

/-- `validate-vpc-migration`: `status = validationResults.length === 0 ? "PASS" : "FAIL"`. -/
def validateStatus (originalCode migratedCode : List Char) : List Char :=
  if (validateIssues originalCode migratedCode).length = 0
    then ("PASS").data else ("FAIL").data

/-- Success message returned when the issue list is empty. -/
def migrationSuccessS : String := "Migration successful! Test your infrastructure code to ensure it works as expected."

/-- `validate-vpc-migration`: the `recommendations` field of the reply. -/
def validateRecommendations (originalCode migratedCode : List Char) : List (List Char) :=
  if (validateIssues originalCode migratedCode).length = 0
    then [migrationSuccessS.data]
    else (validateIssues originalCode migratedCode).map (fun r => r.recommendation)

/-! ### `refactor-vpc` -/

/-- Approach key `"Subnet"` gating the subnet regex substitution. -/
def subnetApproachKeyS : String := "Subnet"

/-- Approach key `"IPAM"` gating the IPAM string replacement. -/
def ipamApproachKeyS : String := "IPAM"

/-- Literal search string of the cidr branch (JS string `replace`, first
occurrence only; `$1` is a literal character pair since the pattern is a
string, not a regex). -/
def cidrSearchS : String := "ipAddresses: IpAddresses.cidr(\x27$1\x27)"

/-- Literal replacement string of the cidr branch (two spaces after the colon,
as in the source; `$1` stays literal because the pattern has no capture
groups). -/
def cidrReplaceS : String := "primaryAddressBlock:  IpAddresses.ipv4(\x27$1\x27)"

/-- Literal search string of the IPAM branch. -/
def ipamSearchS : String := "ipAddresses: IpAddresses.awsIpamAllocation(\x27$1\x27)"

/-- Literal replacement string of the IPAM branch. -/
def ipamReplaceS : String := "primaryAddressBlock: Ip4Addresses.ipv4Ipam(\x27$1\x27)"

/-- The single required import line (`requiredImports.join` of the one-element
array). -/
def importSectionS : String := "import \x7b VpcV2, SubnetV2, IpAddresses \x7d from \x27@aws-cdk/aws-ec2-alpha\x27;"

/-- Import-presence marker `"SubnetConfiguration"` (capital S, as in the source). -/
def impMark1S : String := "SubnetConfiguration"

/-- Import-presence marker `"IpAddresses"`. -/
def impMark2S : String := "IpAddresses"

/-- Import-presence marker `"Ipam"`. -/
def impMark3S : String := "Ipam"

/-- Literal head `"subnetConfiguration:"` of the subnet regex. -/
def subnetPatS : String := "subnetConfiguration:"

/-- Head of the text inserted for each subnet match: `"new SubnetV2(["`. -/
def newSubnetPreS : String := "new SubnetV2(["

/-- JS `s.replace(pat, rep)` with a string pattern: replace the first
occurrence of `pat` (if any) by `rep`. -/
def replaceFirst (pat rep : List Char) : List Char → List Char
  | [] => if isPre pat [] then rep else []
  | c :: t =>
    if isPre pat (c :: t) then rep ++ (c :: t).drop pat.length
    else c :: replaceFirst pat rep t

/-- One attempt of the regex `/subnetConfiguration:\s*\[([^\]]+)\]/` at the
start of `l`: on success returns the capture (`[^\]]+`) and the remainder of
the string after the match.  `\s*` and `[^\]]+` are greedy, but since the
characters that may follow them (`[`, `]`) are excluded from their classes no
backtracking can occur and the scan below is exact. -/
def subnetMatchAt (l : List Char) : Option (List Char × List Char) :=
  match stripPre (subnetPatS.data) l with
  | none => none
  | some r1 =>
    match r1.dropWhile jsSpace with
    | [] => none
    | d :: r3 =>
      if d = '[' then
        match r3.dropWhile (fun c => !(c == ']')) with
        | [] => none
        | e :: r4 =>
          if e = ']' then
            if r3.takeWhile (fun c => !(c == ']')) = [] then none
            else some (r3.takeWhile (fun c => !(c == ']')), r4)
          else none
      else none

theorem subnetMatchAt_decomp {l cap rest : List Char}
    (h : subnetMatchAt l = some (cap, rest)) :
    ∃ ws, l = subnetPatS.data ++ (ws ++ ('[' :: (cap ++ (']' :: rest)))) := by
  unfold subnetMatchAt at h
  split at h
  · cases h
  next r1 h1 =>
    split at h
    · cases h
    next d r3 h2 =>
      split at h
      · next hd =>
          split at h
          · cases h
          next e r4 h3 =>
            split at h
            · next he =>
                split at h
                · cases h
                next hcap =>
                  injection h with h4
                  injection h4 with h5 h6
                  subst hd he
                  refine ⟨r1.takeWhile jsSpace, ?_⟩
                  have hl : l = subnetPatS.data ++ r1 := stripPre_eq h1
                  have hr1 := List.takeWhile_append_dropWhile jsSpace r1
                  have hr3 := List.takeWhile_append_dropWhile (fun c => !(c == ']')) r3
                  have e3 : r3 = cap ++ (']' :: rest) := by
                    rw [← hr3, h5, h3, h6]
                  rw [hl]
                  congr 1
                  conv_lhs => rw [← hr1]
                  rw [h2, e3]
            · cases h
      · cases h

/-- Fuel-indexed global replacement for
`/subnetConfiguration:\s*\[([^\]]+)\]/g` with replacement
`"new SubnetV2([$1])"`: scan left to right, at each position try the pattern;
on a match emit the replacement (the `$1` capture spliced between
`new SubnetV2([` and `])`) and continue after the matched text, otherwise copy
one character.  Each step consumes at least one input character, so fuel equal
to the length of the input (as used by `subnetReplace`) is exact. -/
def subnetReplaceF : Nat → List Char → List Char
  | _, [] => []
  | 0, _ :: _ => []
  | fuel + 1, c :: t =>
    match subnetMatchAt (c :: t) with
    | some (cap, rest) =>
        newSubnetPreS.data ++ (cap ++ (']' :: (')' :: subnetReplaceF fuel rest)))
    | none => c :: subnetReplaceF fuel t

/-- `refactoredCode.replace(/subnetConfiguration:\s*\[([^\]]+)\]/g, "new SubnetV2([$1])")`. -/
def subnetReplace (l : List Char) : List Char := subnetReplaceF l.length l

/-- The import-insertion condition of `refactor-vpc`:
`!includes("SubnetConfiguration") || !includes("IpAddresses") || !includes("Ipam")`. -/
def importNeeded (s : List Char) : Bool :=
  !includesL s (impMark1S.data) || !includesL s (impMark2S.data) || !includesL s (impMark3S.data)

/-- Prepend `importSection + '\n\n'` when `importNeeded`. -/
def addImports (s : List Char) : List Char :=
  if importNeeded s then importSectionS.data ++ ('\n' :: ('\n' :: s)) else s

/-- The `refactor-vpc` handler body: the three gated substitutions in source
order, then the conditional import insertion. -/
def refactorVpc (cdkCode migrationApproach : List Char) : List Char :=
  let r1 := if includesL migrationApproach (subnetApproachKeyS.data)
    then subnetReplace cdkCode else cdkCode
  let r2 := if includesL migrationApproach (cidrKeyS.data)
    then replaceFirst (cidrSearchS.data) (cidrReplaceS.data) r1 else r1
  let r3 := if includesL migrationApproach (ipamApproachKeyS.data)
    then replaceFirst (ipamSearchS.data) (ipamReplaceS.data) r2 else r2
  addImports r3

/-! ### `analyze-vpc` -/

/-- Literal `"new"` of the VPC patterns. -/
def newKeyS : String := "new"

/-- Literal `"ec2.Vpc"` (optional group plus mandatory `Vpc`). -/
def ec2VpcS : String := "ec2.Vpc"

/-- Literal `"Vpc"`. -/
def vpcNameS : String := "Vpc"

/-- Tail of one attempt of `/new\s+(?:ec2\.)?Vpc\s*\(/`: after `acc` has
matched up to `Vpc`, consume `\s*` and `(`, returning the whole matched text
and the remainder. -/
def vpcFinish (acc r3 : List Char) : Option (List Char × List Char) :=
  match r3.dropWhile jsSpace with
  | [] => none
  | d :: r5 =>
    if d = '(' then some (acc ++ (r3.takeWhile jsSpace ++ ['(']), r5) else none

/-- One attempt of `/new\s+(?:ec2\.)?Vpc\s*\(/` at the start of `l`.  The
optional group is tried greedily first (`ec2.Vpc`), then skipped (`Vpc`); the
two alternatives have disjoint success sets, and `\s+`/`\s*` never need to
backtrack because the following literal characters are not whitespace. -/
def vpcMatchAt (l : List Char) : Option (List Char × List Char) :=
  match stripPre (newKeyS.data) l with
  | none => none
  | some r1 =>
    if r1.takeWhile jsSpace = [] then none
    else
      match stripPre (ec2VpcS.data) (r1.dropWhile jsSpace) with
      | some r3 => vpcFinish (newKeyS.data ++ (r1.takeWhile jsSpace ++ ec2VpcS.data)) r3
      | none =>
        match stripPre (vpcNameS.data) (r1.dropWhile jsSpace) with
        | some r3 => vpcFinish (newKeyS.data ++ (r1.takeWhile jsSpace ++ vpcNameS.data)) r3
        | none => none

/-- Fuel-indexed scan of `content.match(/new\s+(?:ec2\.)?Vpc\s*\(/g)`: collect
non-overlapping matches left to right, resuming after each match.  Every step
consumes at least one character, so fuel equal to the length of the input (as
used by `vpcScan`) is exact. -/
def vpcScanF : Nat → List Char → List (List Char)
  | _, [] => []
  | 0, _ :: _ => []
  | fuel + 1, c :: t =>
    match vpcMatchAt (c :: t) with
    | some (m, rest) => m :: vpcScanF fuel rest
    | none => vpcScanF fuel t

/-- `content.match(vpcPattern) || []` for `/new\s+(?:ec2\.)?Vpc\s*\(/g`. -/
def vpcScan (content : List Char) : List (List Char) := vpcScanF content.length content

/-- Minimal-length split of the lazy part of
`({\s*[\s\S]*?}\s*)\)`: find the first position of `l` splitting it as
`body ++ '}' :: ws ++ ')' :: r` with `ws` whitespace; a `}` whose lookahead
(`\s*` then `)`) fails is swallowed into the lazy body, exactly as the regex
engine extends `[\s\S]*?`. -/
def findClose : List Char → Option (List Char × List Char × List Char)
  | [] => none
  | c :: t =>
    if c = '\x7d' then
      match (t.dropWhile jsSpace) with
      | d :: r =>
        if d = ')' then some ([], t.takeWhile jsSpace, r)
        else match findClose t with
          | some (b, v, r') => some (c :: b, v, r')
          | none => none
      | [] =>
        match findClose t with
        | some (b, v, r') => some (c :: b, v, r')
        | none => none
    else
      match findClose t with
      | some (b, v, r') => some (c :: b, v, r')
      | none => none

/-- One attempt of `/new\s+(?:ec2\.)?Vpc\s*\([^{]*({\s*[\s\S]*?}\s*)\)/` at
the start of `l`, returning capture group 1.  `[^{]*` is greedy and cannot
backtrack usefully (its successor is `{`, which it excludes); the greedy
`\s*` parts and the lazy `[\s\S]*?` interact as computed by `findClose`. -/
def configMatchAt (l : List Char) : Option (List Char) :=
  match vpcMatchAt l with
  | none => none
  | some (_, r5) =>
    match r5.dropWhile (fun c => !(c == '\x7b')) with
    | [] => none
    | _ :: m =>
      match findClose (m.dropWhile jsSpace) with
      | some (b, v, _) => some ('\x7b' :: (m.takeWhile jsSpace ++ (b ++ ('\x7d' :: v))))
      | none => none

/-- First match of the non-global `fullVpcPattern` over the whole content:
try `configMatchAt` at each successive start position. -/
def configFind : List Char → Option (List Char)
  | [] => none
  | c :: t =>
    match configMatchAt (c :: t) with
    | some cap => some cap
    | none => configFind t

/-- The `result` object built by `analyze-vpc` on a successful read.  The
field called `matches` in the source is called `matchList` here because
`matches` is a reserved word in Lean. -/
structure AnalyzeResult where
  file : List Char
  vpcConstructs : Nat
  matchList : List (List Char)
  config : Option (List Char)
  migrationReady : Bool
deriving DecidableEq

/-- The analysis `analyze-vpc` performs on the file content it has read:
count the matches of the VPC pattern, and if any exist extract the first
configuration block (trimmed), else leave it `null`. -/
def analyzeContent (filePath content : List Char) : AnalyzeResult :=
  let vpcMatches := vpcScan content
  { file := filePath
    vpcConstructs := vpcMatches.length
    matchList := vpcMatches
    config := if vpcMatches.length > 0 then (configFind content).map trimL else none
    migrationReady := decide (vpcMatches.length > 0) }

/-- Hexadecimal digit as produced by `JSON.stringify` escapes (lowercase). -/
def hexDigit (n : Nat) : Char :=
  if n < 10 then Char.ofNat (48 + n) else Char.ofNat (87 + n)

/-- `JSON.stringify` escaping of one character inside a string literal. -/
def jsonEscapeChar (c : Char) : List Char :=
  if c = '"' then ['\\', '"']
  else if c = '\\' then ['\\', '\\']
  else if c = '\x08' then ['\\', 'b']
  else if c = '\x09' then ['\\', 't']
  else if c = '\x0a' then ['\\', 'n']
  else if c = '\x0c' then ['\\', 'f']
  else if c = '\x0d' then ['\\', 'r']
  else if c.toNat < 32 then
    ['\\', 'u', '0', '0', hexDigit (c.toNat / 16), hexDigit (c.toNat % 16)]
  else [c]

/-- A JSON string literal for `s`. -/
def jsonStr (s : List Char) : List Char :=
  '"' :: ((s.map jsonEscapeChar).flatten ++ ['"'])

/-- `JSON.stringify(xs, null, 2)` rendering of a string array placed at
indentation level one (as the `matches` field is). -/
def jsonStrArr (xs : List (List Char)) : List Char :=
  match xs with
  | [] => ("[]").data
  | _ =>
    ("[\n").data ++
      (List.intercalate ((",\n").data) (xs.map (fun x => ("    ").data ++ jsonStr x)) ++
        ("\n  ]").data)

/-- `JSON.stringify(result, null, 2)` for the `analyze-vpc` result object. -/
def analyzeJson (r : AnalyzeResult) : List Char :=
  ("\x7b\n  \"file\": ").data ++ (jsonStr r.file ++
    ((",\n  \"vpcConstructs\": ").data ++ ((Nat.repr r.vpcConstructs).data ++
      ((",\n  \"matches\": ").data ++ (jsonStrArr r.matchList ++
        ((",\n  \"config\": ").data ++
          ((match r.config with
            | none => ("null").data
            | some c => jsonStr c) ++
            ((",\n  \"migrationReady\": ").data ++
              ((if r.migrationReady then ("true").data else ("false").data) ++
                ("\n\x7d").data)))))))))

/-- A `{type: "text", text}` content block of a tool reply. -/
structure ContentBlock where
  type : List Char
  text : List Char
deriving DecidableEq

/-- A tool reply `{content, isError?}`; `isError` defaults to absent/false. -/
structure ToolOut where
  content : List ContentBlock
  isError : Bool
deriving DecidableEq

/-- Build the single `{type: "text", text}` block of a reply. -/
def textBlock (t : List Char) : ContentBlock := ⟨("text").data, t⟩

/-- Message head of the `analyze-vpc` accessibility error. -/
def accessErrS : String := "Error: File does not exist or is not accessible: "

/-- The `analyze-vpc` handler.  `access` is the outcome of `fs.access` and
`content` the text delivered by the subsequent `fs.readFile`.  When the
accessibility check fails the handler returns an error-flagged result instead
of throwing; otherwise it returns the serialized analysis (and no exception
can occur in the remaining pure string code, so the outer catch is dead). -/
def analyzeVpcTool (filePath : List Char) (access : Except (List Char) Unit)
    (content : List Char) : ToolOut :=
  match access with
  | Except.error _ => ⟨[textBlock (accessErrS.data ++ filePath)], true⟩
  | Except.ok _ => ⟨[textBlock (analyzeJson (analyzeContent filePath content))], false⟩

/-! ### Resource `cdk-files` -/

/-- One element of a resource reply's `contents` array. -/
structure ResContent where
  uri : List Char
  text : List Char
deriving DecidableEq

/-- A resource reply `{contents: [...]}`. -/
structure ResourceOut where
  contents : List ResContent
deriving DecidableEq

/-- Message head of the `cdk-files` read error. -/
def readErrS : String := "Error reading file: "

/-- The `cdk-files` resource handler: `readResult` is the outcome of
`fs.readFile(filePath, "utf8")` (`Except` error message on failure).  Both
branches return a well-formed `ResourceOut`; the catch converts every read
failure into a content block, so no fault reaches the protocol layer (the
handler is a total function into `ResourceOut`). -/
def cdkFilesResource (uriHref : List Char) (readResult : Except (List Char) (List Char)) :
    ResourceOut :=
  match readResult with
  | Except.ok content => ⟨[⟨uriHref, content⟩]⟩
  | Except.error e => ⟨[⟨uriHref, readErrS.data ++ e⟩]⟩

/-! ### `generate-migration-docs` -/

/-- Change bullet for the Vpc→VpcV2 upgrade. -/
def chg1S : String := "Upgraded from Vpc to VpcV2 construct"

/-- Change bullet for the CIDR migration. -/
def chg2S : String := "Migrated CIDR configuration to use primaryAddressBlock"

/-- Change bullet for the subnet migration. -/
def chg3S : String := "Replaced subnetConfiguration array with explicit SubnetV2 constructs"

/-- Change bullet for the NAT gateway migration. -/
def chg4S : String := "Replaced natGateways property with addNatGateway() method calls"

/-- The `changes` list of `generate-migration-docs`, in push order. -/
def changesList (originalCode migratedCode : List Char) : List (List Char) :=
  (if includesL originalCode (vpcNameS.data) && includesL migratedCode (vpcV2KeyS.data)
    then [chg1S.data] else []) ++
  (if includesL originalCode (cidrMaskKeyS.data) && includesL migratedCode (pabKeyS.data)
    then [chg2S.data] else []) ++
  (if includesL originalCode (subnetConfKeyS.data) && includesL migratedCode (subnetV2KeyS.data)
    then [chg3S.data] else []) ++
  (if includesL originalCode (natGatewaysKeyS.data) && includesL migratedCode (addNatGatewayKeyS.data)
    then [chg4S.data] else [])

/-- Template segment before the changes list. -/
def docT1S : String := "\n# VPC Migration Documentation\n\n## Changes Applied\n\n"

/-- Template segment between the changes list and the original code. -/
def docT2S : String := "\n\n## Migration Details\n\n### Original Code\n```typescript\n"

/-- Template segment between the original and the migrated code. -/
def docT3S : String := "\n```\n\n### Migrated Code\n```typescript\n"

/-- Template segment after the migrated code (testing checklist and
references). -/
def docT4S : String := "\n```\n\n## Testing Recommendations\n\n1. Deploy the migrated infrastructure to a test environment\n2. Verify network connectivity between subnets\n3. Validate that internet connectivity works as expected\n4. Check that any resources depending on the VPC can still connect properly\n\n## References\n\n- [AWS CDK VpcV2 API Reference](https://docs.aws.amazon.com/cdk/api/v2/docs/aws-cdk-lib.aws_ec2.Vpc.html)\n- [AWS CDK Migration Guide](https://docs.aws.amazon.com/cdk/v2/guide/migrating-v2.html)\n"

/-- The markdown produced by `generate-migration-docs`:
the template literal with `changes.map(change => `- ${change}`).join('\n')`,
`originalCode` and `migratedCode` interpolated. -/
def documentMd (originalCode migratedCode : List Char) : List Char :=
  docT1S.data ++
    (List.intercalate ['\n']
        ((changesList originalCode migratedCode).map (fun c => ("- ").data ++ c)) ++
      (docT2S.data ++ (originalCode ++ (docT3S.data ++ (migratedCode ++ docT4S.data)))))

/-! ### Occurrence lemmas -/

theorem hasSub_lift {A m B n : List Char} (h : HasSub m n) : HasSub (A ++ (m ++ B)) n := by
  obtain ⟨p, q, hpq⟩ := h
  exact ⟨A ++ p, q ++ B, by rw [hpq]; simp⟩

theorem pre_split (X : List Char) :
    ∀ Y u, (∃ v, X ++ Y = u ++ v) →
      (∃ v, X = u ++ v) ∨ (∃ w, u = X ++ w ∧ ∃ v, Y = w ++ v) := by
  induction X with
  | nil => intro Y u h; exact Or.inr ⟨u, rfl, h⟩
  | cons a X ih =>
    intro Y u h
    cases u with
    | nil => exact Or.inl ⟨a :: X, rfl⟩
    | cons b u' =>
      obtain ⟨v, hv⟩ := h
      rw [List.cons_append, List.cons_append] at hv
      injection hv with h1 h2
      subst h1
      rcases ih Y u' ⟨v, h2⟩ with ⟨v', hv'⟩ | ⟨w, hw, hwv⟩
      · exact Or.inl ⟨v', by rw [hv', List.cons_append]⟩
      · exact Or.inr ⟨w, by rw [hw, List.cons_append], hwv⟩

theorem span_occ (A : List Char) :
    ∀ B n x y, A ++ B = x ++ n ++ y →
      HasSub A n ∨ HasSub B n ∨
        ∃ s t, n = s ++ t ∧ s ≠ [] ∧ t ≠ [] ∧ (∃ w, A = w ++ s) ∧ ∃ v, B = t ++ v := by
  induction A with
  | nil => intro B n x y h; exact Or.inr (Or.inl ⟨x, y, by simpa using h⟩)
  | cons a A ih =>
    intro B n x y h
    cases x with
    | nil =>
      simp only [List.nil_append] at h
      rcases pre_split (a :: A) B n ⟨y, h⟩ with ⟨v, hv⟩ | ⟨w, hw, hwv⟩
      · exact Or.inl ⟨[], v, by simpa using hv⟩
      · cases w with
        | nil =>
          rw [List.append_nil] at hw
          exact Or.inl ⟨[], [], by simp [hw]⟩
        | cons c w' =>
          exact Or.inr (Or.inr ⟨a :: A, c :: w', hw, List.cons_ne_nil a A,
            List.cons_ne_nil c w', ⟨[], rfl⟩, hwv⟩)
    | cons b x' =>
      rw [List.cons_append] at h
      rw [List.append_assoc, List.cons_append] at h
      injection h with h1 h2
      subst h1
      rw [← List.append_assoc] at h2
      rcases ih B n x' y h2 with hA | hB | ⟨s, t, hn, hs, ht, ⟨w, hw⟩, hv⟩
      · obtain ⟨p, q, hpq⟩ := hA
        exact Or.inl ⟨a :: p, q, by rw [hpq]; simp⟩
      · exact Or.inr (Or.inl hB)
      · exact Or.inr (Or.inr ⟨s, t, hn, hs, ht, ⟨a :: w, by rw [hw, List.cons_append]⟩, hv⟩)

theorem hasSub_pair {a b : Char} {n : List Char} (h : HasSub [a, b] n) :
    n = [] ∨ n = [a] ∨ n = [b] ∨ n = [a, b] := by
  obtain ⟨x, y, hxy⟩ := h
  have hxy' : x ++ (n ++ y) = [a, b] := by
    rw [← List.append_assoc]; exact hxy.symm
  cases x with
  | nil =>
    simp only [List.nil_append] at hxy'
    cases n with
    | nil => exact Or.inl rfl
    | cons c n' =>
      rw [List.cons_append] at hxy'
      injection hxy' with h1 h2
      subst h1
      cases n' with
      | nil => exact Or.inr (Or.inl rfl)
      | cons d n'' =>
        rw [List.cons_append] at h2
        injection h2 with h3 h4
        subst h3
        rcases List.append_eq_nil.mp h4 with ⟨h5, _⟩
        subst h5
        exact Or.inr (Or.inr (Or.inr rfl))
  | cons c x' =>
    rw [List.cons_append] at hxy'
    injection hxy' with h1 h2
    subst h1
    cases x' with
    | nil =>
      simp only [List.nil_append] at h2
      cases n with
      | nil => exact Or.inl rfl
      | cons d n' =>
        rw [List.cons_append] at h2
        injection h2 with h3 h4
        subst h3
        rcases List.append_eq_nil.mp h4 with ⟨h5, _⟩
        subst h5
        exact Or.inr (Or.inr (Or.inl rfl))
    | cons d x'' =>
      rw [List.cons_append] at h2
      injection h2 with _ h4
      rcases List.append_eq_nil.mp h4 with ⟨_, h5⟩
      rcases List.append_eq_nil.mp h5 with ⟨h6, _⟩
      exact Or.inl h6

theorem suffix_of_pair {a b : Char} {s w : List Char} (h : w ++ s = [a, b]) (hs : s ≠ []) :
    s = [b] ∨ s = [a, b] := by
  cases w with
  | nil => exact Or.inr (by simpa using h)
  | cons c w' =>
    rw [List.cons_append] at h
    injection h with h1 h2
    cases w' with
    | nil => exact Or.inl (by simpa using h2)
    | cons d w'' =>
      rw [List.cons_append] at h2
      injection h2 with h3 h4
      rcases List.append_eq_nil.mp h4 with ⟨_, h5⟩
      exact absurd h5 hs

theorem mem_suffix_of_getLast {w s : List Char} {c : Char} (hs : s ≠ [])
    (hl : (w ++ s).getLast? = some c) : c ∈ s := by
  rw [List.getLast?_append_of_ne_nil w hs] at hl
  obtain ⟨h, rfl⟩ := List.mem_getLast?_eq_getLast hl
  exact List.getLast_mem h

theorem head_of_pre {t : List Char} {x : Char} {xs : List Char}
    (ht : t ≠ []) (h : ∃ v, x :: xs = t ++ v) : ∃ t', t = x :: t' := by
  obtain ⟨v, hv⟩ := h
  cases t with
  | nil => exact absurd rfl ht
  | cons y t' =>
    rw [List.cons_append] at hv
    injection hv with h1 _
    exact ⟨t', by rw [h1]⟩

theorem take_of_pre {u X v : List Char} (h : X = u ++ v) : X.take u.length = u := by
  rw [h]
  exact List.take_left u v

/-! ### Preservation of absent literals by the subnet substitution -/

theorem srfF_nil (fuel : Nat) : subnetReplaceF fuel [] = [] := by
  cases fuel <;> rfl

theorem srfF_cons_some {c : Char} {t cap rest : List Char} (fuel : Nat)
    (hm : subnetMatchAt (c :: t) = some (cap, rest)) :
    subnetReplaceF (fuel + 1) (c :: t) =
      newSubnetPreS.data ++ (cap ++ (']' :: (')' :: subnetReplaceF fuel rest))) := by
  simp [subnetReplaceF, hm]

theorem srfF_cons_none {c : Char} {t : List Char} (fuel : Nat)
    (hm : subnetMatchAt (c :: t) = none) :
    subnetReplaceF (fuel + 1) (c :: t) = c :: subnetReplaceF fuel t := by
  simp [subnetReplaceF, hm]

/-- If a nonempty suffix `u` of the literal `lit` is a prefix of the
transformed text, then it is a prefix of the untransformed text, provided no
nonempty prefix of `"new SubnetV2(["` is a suffix of `lit` and `lit` avoids
`[`. -/
theorem srf_pre_track (lit : List Char)
    (hlb : '[' ∉ lit)
    (hpre : ∀ k, k < 15 → k ≠ 0 → endsWithL lit ((newSubnetPreS.data).take k) = false) :
    ∀ fuel l u, u ≠ [] → (∃ w, w ≠ [] ∧ lit = w ++ u) →
      (∃ v, subnetReplaceF fuel l = u ++ v) → ∃ v, l = u ++ v := by
  intro fuel
  induction fuel with
  | zero =>
    intro l u hu _ hp
    obtain ⟨v, hv⟩ := hp
    have : ([] : List Char) = u ++ v := by
      cases l with
      | nil => simpa [srfF_nil] using hv
      | cons c t => simpa [subnetReplaceF] using hv
    rcases List.append_eq_nil.mp this.symm with ⟨h1, _⟩
    exact absurd h1 hu
  | succ fuel ih =>
    intro l u hu hsuf hp
    cases l with
    | nil =>
      obtain ⟨v, hv⟩ := hp
      rw [srfF_nil] at hv
      rcases List.append_eq_nil.mp hv.symm with ⟨h1, _⟩
      exact absurd h1 hu
    | cons c t =>
      cases hm : subnetMatchAt (c :: t) with
      | some pr =>
        obtain ⟨cap, rest⟩ := pr
        obtain ⟨v, hv⟩ := hp
        rw [srfF_cons_some fuel hm] at hv
        exfalso
        rcases pre_split (newSubnetPreS.data) _ u ⟨v, hv⟩ with ⟨v', hv'⟩ | ⟨w, hw, _⟩
        · -- u is a nonempty prefix of "new SubnetV2([": excluded by hpre
          have hlen14 : (newSubnetPreS.data).length = 14 := by decide
          have hlen : u.length ≤ 14 := by
            have := congrArg List.length hv'
            rw [List.length_append] at this
            omega
          have hne : u.length ≠ 0 := by
            cases u with
            | nil => exact absurd rfl hu
            | cons a u' => simp
          have htake : (newSubnetPreS.data).take u.length = u := take_of_pre hv'
          have hfalse := hpre u.length (by omega) hne
          rw [htake] at hfalse
          obtain ⟨w, hwne, hw⟩ := hsuf
          have htrue : endsWithL lit u = true := (endsWith_iff lit u).mpr ⟨w, hw⟩
          rw [hfalse] at htrue
          cases htrue
        · -- u extends past "new SubnetV2([", so it contains the bracket
          have h1 : '[' ∈ u := by
            rw [hw]
            exact List.mem_append_left w (by decide)
          obtain ⟨w₀, _, hw₀⟩ := hsuf
          exact hlb (by rw [hw₀]; exact List.mem_append_right w₀ h1)
      | none =>
        obtain ⟨v, hv⟩ := hp
        rw [srfF_cons_none fuel hm] at hv
        cases u with
        | nil => exact absurd rfl hu
        | cons c' u' =>
          rw [List.cons_append] at hv
          injection hv with h1 h2
          subst h1
          cases u' with
          | nil => exact ⟨t, rfl⟩
          | cons d u'' =>
            obtain ⟨w₀, hw₀ne, hw₀⟩ := hsuf
            have hsuf' : ∃ w, w ≠ [] ∧ lit = w ++ (d :: u'') :=
              ⟨w₀ ++ [c], by simp, by rw [hw₀]; simp⟩
            obtain ⟨v', hv'⟩ := ih t (d :: u'') (by simp) hsuf' ⟨v, h2⟩
            exact ⟨v', by rw [List.cons_append, hv']⟩

/-- The subnet substitution cannot create an occurrence of a literal `lit`
that avoids `[` and `]`, does not start with `)`, has no nonempty prefix of
`"new SubnetV2(["` as a suffix, and does not occur inside `"new SubnetV2(["`
itself: every occurrence in the output would have to lie inside a copied
region or inside a spliced capture, both of which are substrings of the
input. -/
theorem srf_preserves (lit : List Char)
    (hnil : lit ≠ [])
    (hlb : '[' ∉ lit) (hrb : ']' ∉ lit)
    (hhead : lit.head? ≠ some ')')
    (hpre : ∀ k, k < 15 → k ≠ 0 → endsWithL lit ((newSubnetPreS.data).take k) = false)
    (hins : includesL (newSubnetPreS.data) lit = false) :
    ∀ fuel l, ¬ HasSub l lit → ¬ HasSub (subnetReplaceF fuel l) lit := by
  intro fuel
  induction fuel with
  | zero =>
    intro l _ hcon
    have hcon' : HasSub ([] : List Char) lit := by
      cases l with
      | nil => simpa [srfF_nil] using hcon
      | cons c t => simpa [subnetReplaceF] using hcon
    exact hnil ((hasSub_nil_iff lit).mp hcon')
  | succ fuel ih =>
    intro l hl hcon
    cases l with
    | nil =>
      rw [srfF_nil] at hcon
      exact hnil ((hasSub_nil_iff lit).mp hcon)
    | cons c t =>
      cases hm : subnetMatchAt (c :: t) with
      | some pr =>
        obtain ⟨cap, rest⟩ := pr
        obtain ⟨ws, hdecomp⟩ := subnetMatchAt_decomp hm
        have hcap : ¬ HasSub cap lit := by
          rintro ⟨p, q, hpq⟩
          exact hl ⟨subnetPatS.data ++ (ws ++ ('[' :: p)), q ++ (']' :: rest),
            by rw [hdecomp, hpq]; simp⟩
        have hrest : ¬ HasSub rest lit := by
          rintro ⟨p, q, hpq⟩
          exact hl ⟨subnetPatS.data ++ (ws ++ ('[' :: (cap ++ (']' :: p)))), q,
            by rw [hdecomp, hpq]; simp⟩
        have hsrf : ¬ HasSub (subnetReplaceF fuel rest) lit := ih rest hrest
        rw [srfF_cons_some fuel hm] at hcon
        obtain ⟨x, y, hxy⟩ := hcon
        rcases span_occ (newSubnetPreS.data) _ lit x y hxy with
          h1 | h1 | ⟨s, t', hn, hs, _, ⟨w, hw⟩, _⟩
        · exact absurd ((includes_iff _ _).mpr h1) (by rw [hins]; intro h; cases h)
        · obtain ⟨x2, y2, hxy2⟩ := h1
          rcases span_occ cap _ lit x2 y2 hxy2 with
            h2 | h2 | ⟨s, t', hn, _, ht', _, hpreB⟩
          · exact hcap h2
          · have hrw : (']' :: (')' :: subnetReplaceF fuel rest)) =
                [']', ')'] ++ subnetReplaceF fuel rest := rfl
            rw [hrw] at h2
            obtain ⟨x3, y3, hxy3⟩ := h2
            rcases span_occ ([']', ')']) _ lit x3 y3 hxy3 with
              h3 | h3 | ⟨s, t', hn, hs, _, ⟨w, hw⟩, _⟩
            · rcases hasSub_pair h3 with h4 | h4 | h4 | h4
              · exact hnil h4
              · exact hrb (by rw [h4]; exact List.mem_singleton.mpr rfl)
              · exact absurd (by rw [h4]; rfl) hhead
              · exact hrb (by rw [h4]; exact List.mem_cons_self ']' [')'])
            · exact hsrf h3
            · rcases suffix_of_pair hw.symm hs with h4 | h4
              · subst h4
                rw [hn] at hhead
                exact absurd rfl hhead
              · subst h4
                exact hrb (by rw [hn]; exact List.mem_append_left t' (List.mem_cons_self ']' [')']))
          · obtain ⟨t'', ht''⟩ := head_of_pre ht' hpreB
            exact hrb (by rw [hn, ht'']; exact List.mem_append_right s (List.mem_cons_self ']' t''))
        · have h1 : '[' ∈ s :=
            mem_suffix_of_getLast hs (by rw [← hw]; decide)
          exact hlb (by rw [hn]; exact List.mem_append_left t' h1)
      | none =>
        have hnt : ¬ HasSub t lit := fun hs => hl ((hasSub_cons_iff c t lit).mpr (Or.inr hs))
        have hnp : ¬ (∃ v, c :: t = lit ++ v) := fun hp => hl ((hasSub_cons_iff c t lit).mpr (Or.inl hp))
        rw [srfF_cons_none fuel hm] at hcon
        rcases (hasSub_cons_iff c (subnetReplaceF fuel t) lit).mp hcon with ⟨v, hv⟩ | h
        · cases hlit : lit with
          | nil => exact hnil hlit
          | cons c₀ u =>
            rw [hlit, List.cons_append] at hv
            injection hv with h1 h2
            subst h1
            cases u with
            | nil => exact hnp ⟨t, by rw [hlit]; rfl⟩
            | cons d u' =>
              obtain ⟨v', hv'⟩ := srf_pre_track lit
                hlb hpre fuel t (d :: u') (by simp)
                ⟨[c], by simp, by rw [hlit]; rfl⟩ ⟨v, h2⟩
              exact hnp ⟨v', by rw [hlit, List.cons_append, hv']⟩
        · exact (ih t hnt) h

/-- JS string `replace` is the identity when the pattern does not occur. -/
theorem replaceFirst_no_occ {pat rep l : List Char} (h : ¬ HasSub l pat) :
    replaceFirst pat rep l = l := by
  induction l with
  | nil =>
    rw [replaceFirst, if_neg]
    intro hp
    rcases (isPre_iff pat []).mp hp with ⟨t, ht⟩
    rcases List.append_eq_nil.mp ht.symm with ⟨h1, _⟩
    subst h1
    exact h ⟨[], [], rfl⟩
  | cons c t ih =>
    have h1 : ¬ (isPre pat (c :: t) = true) := fun hp =>
      h ((hasSub_cons_iff c t pat).mpr (Or.inl (by
        rcases (isPre_iff pat (c :: t)).mp hp with ⟨v, hv⟩
        exact ⟨v, hv⟩)))
    have h2 : ¬ HasSub t pat := fun hs => h ((hasSub_cons_iff c t pat).mpr (Or.inr hs))
    rw [replaceFirst, if_neg h1, ih h2]

/-- If the VPC pattern matches at no suffix of the input, the scan collects
nothing. -/
theorem vpcScanF_nil_of_no_match :
    ∀ fuel l, (∀ s ∈ l.tails, vpcMatchAt s = none) → vpcScanF fuel l = [] := by
  intro fuel
  induction fuel with
  | zero => intro l _; cases l <;> rfl
  | succ fuel ih =>
    intro l h
    cases l with
    | nil => rfl
    | cons c t =>
      have hself : vpcMatchAt (c :: t) = none := h (c :: t) (by simp [List.tails_cons])
      have hrec : ∀ s ∈ t.tails, vpcMatchAt s = none := fun s hs =>
        h s (by simp [List.tails_cons, hs])
      simp [vpcScanF, hself, ih t hrec]

/-! ### Claim theorems -/

/-- C1: for every pair of input strings, `validate-vpc-migration` returns
status `"PASS"` iff its recorded issue list is empty, and whenever the
migrated code does not contain the literal substring `"VpcV2"` the status is
`"FAIL"` and the issue list contains a record whose `issue` field is
`"Missing VpcV2 construct"`. -/
theorem claim_c1_validate (originalCode migratedCode : List Char) :
    (validateStatus originalCode migratedCode = ("PASS").data ↔
      validateIssues originalCode migratedCode = []) ∧
    (includesL migratedCode (vpcV2KeyS.data) = false →
      validateStatus originalCode migratedCode = ("FAIL").data ∧
      ∃ r ∈ validateIssues originalCode migratedCode, r.issue = missingVpcV2S.data) := by
  constructor
  · unfold validateStatus
    by_cases h : (validateIssues originalCode migratedCode).length = 0
    · rw [if_pos h]
      exact ⟨fun _ => List.length_eq_zero.mp h, fun _ => rfl⟩
    · rw [if_neg h]
      constructor
      · intro hf; exact absurd hf (by decide)
      · intro he; exact absurd (by rw [he]; rfl) h
  · intro hm
    obtain ⟨rest, hrest⟩ : ∃ rest,
        validateIssues originalCode migratedCode = missingVpcV2Issue :: rest := by
      refine ⟨(if includesL originalCode (cidrMaskKeyS.data) &&
            !includesL migratedCode (pabKeyS.data) then [ipAddressingIssue] else []) ++
          ((if includesL originalCode (subnetConfKeyS.data) &&
            !includesL migratedCode (subnetV2KeyS.data) then [subnetIssue] else []) ++
          (if includesL originalCode (natGatewaysKeyS.data) &&
            !includesL migratedCode (addNatGatewayKeyS.data) then [natGatewayIssue] else [])), ?_⟩
      unfold validateIssues
      rw [hm]
      simp
    constructor
    · unfold validateStatus
      rw [if_neg (by rw [hrest]; simp)]
    · exact ⟨missingVpcV2Issue, by rw [hrest]; exact List.mem_cons_self _ _, rfl⟩

/-- Witness for C1 at a concrete migrated code lacking `"VpcV2"`. -/
theorem claim_c1_witness :
    includesL (("const x = 1;").data) (vpcV2KeyS.data) = false ∧
    (validateStatus (("new Vpc(a);").data) (("const x = 1;").data) = ("FAIL").data ∧
      ∃ r ∈ validateIssues (("new Vpc(a);").data) (("const x = 1;").data),
        r.issue = missingVpcV2S.data) :=
  ⟨by decide,
    (claim_c1_validate (("new Vpc(a);").data) (("const x = 1;").data)).2 (by decide)⟩

/-- C2: the claim asserts that refactor-vpc never duplicates the prepended
block of import statements when run twice.  The code does duplicate it: the
presence check tests the markers SubnetConfiguration, IpAddresses and Ipam
joined by a disjunction of negations, and the already-inserted line contains
neither SubnetConfiguration nor Ipam, so a second insertion is not stopped,
contradicting the source's own comment (add imports if not already present).
At the concrete failing input below the once-refactored code contains the
line exactly once and the twice-refactored code contains it twice. -/
theorem claim_c2_import_duplicated :
    countSub (refactorVpc (("const vpc = new Vpc(this);").data)
        (recBasicS.data)) (importSectionS.data) = 1 ∧
    countSub (refactorVpc (refactorVpc (("const vpc = new Vpc(this);").data)
        (recBasicS.data)) (recBasicS.data)) (importSectionS.data) = 2 := by
  constructor <;> decide

/-- C3: the `cdk-files` resource handler is a total function into a resource
reply (no fault escapes to the protocol layer); its contents array always has
length one, on a successful read it carries the file text verbatim, and on a
failed read its single text begins with `"Error reading file:"`. -/
theorem claim_c3_cdk_files (uriHref : List Char) (readResult : Except (List Char) (List Char)) :
    (cdkFilesResource uriHref readResult).contents.length = 1 ∧
    (∀ c, readResult = Except.ok c →
      (cdkFilesResource uriHref readResult).contents = [⟨uriHref, c⟩]) ∧
    (∀ e, readResult = Except.error e →
      (cdkFilesResource uriHref readResult).contents = [⟨uriHref, readErrS.data ++ e⟩] ∧
      ∃ t, (cdkFilesResource uriHref readResult).contents =
        [⟨uriHref, ("Error reading file:").data ++ t⟩]) := by
  refine ⟨?_, ?_, ?_⟩
  · cases readResult <;> rfl
  · rintro c rfl; rfl
  · rintro e rfl
    refine ⟨rfl, ' ' :: e, ?_⟩
    have h : readErrS.data = ("Error reading file:").data ++ [' '] := by decide
    show ResourceOut.contents ⟨[⟨uriHref, readErrS.data ++ e⟩]⟩ = _
    rw [h, List.append_assoc]
    rfl

/-- Witness for C3 at a concrete failed read. -/
theorem claim_c3_witness :
    (cdkFilesResource (("file:///missing.ts").data)
        (Except.error (("ENOENT: no such file or directory").data))).contents =
      [⟨("file:///missing.ts").data,
        readErrS.data ++ ("ENOENT: no such file or directory").data⟩] ∧
    ∃ t, (cdkFilesResource (("file:///missing.ts").data)
        (Except.error (("ENOENT: no such file or directory").data))).contents =
      [⟨("file:///missing.ts").data, ("Error reading file:").data ++ t⟩] :=
  (claim_c3_cdk_files (("file:///missing.ts").data)
    (Except.error (("ENOENT: no such file or directory").data))).2.2
    (("ENOENT: no such file or directory").data) rfl

/-- C4: the `migrationReady` flag of `analyze-vpc` is true iff the construct
count is positive, and whenever no suffix of the content matches the VPC
regex (i.e. the content lacks the construct-instantiation pattern) the result
has `migrationReady: false` and an empty match list. -/
theorem claim_c4_analyze (filePath content : List Char) :
    ((analyzeContent filePath content).migrationReady = true ↔
      0 < (analyzeContent filePath content).vpcConstructs) ∧
    ((∀ s ∈ content.tails, vpcMatchAt s = none) →
      (analyzeContent filePath content).migrationReady = false ∧
      (analyzeContent filePath content).matchList = []) := by
  constructor
  · simp [analyzeContent]
  · intro h
    have hscan : vpcScan content = [] := vpcScanF_nil_of_no_match content.length content h
    constructor
    · simp [analyzeContent, hscan]
    · simp [analyzeContent, hscan]

/-- Witness for C4 at a concrete content with no VPC construct. -/
theorem claim_c4_witness :
    (∀ s ∈ (("const x = 1;").data).tails, vpcMatchAt s = none) ∧
    ((analyzeContent (("f.ts").data) (("const x = 1;").data)).migrationReady = false ∧
      (analyzeContent (("f.ts").data) (("const x = 1;").data)).matchList = []) :=
  ⟨by decide, (claim_c4_analyze (("f.ts").data) (("const x = 1;").data)).2 (by decide)⟩

/-- C5: `get-vpc-migration-recommendations` returns the three subnet
recommendation strings iff the code contains `"subnet"`, the IP-addressing
recommendation iff it contains `"cidr"` or `"ipAddress"`, and exactly the
fallback singleton when none of these occur; in particular
`recommend("my subnet config")` includes the subnet recommendations and
excludes the IP-addressing one. -/
theorem claim_c5_recommend (cdkCode : List Char) :
    ((recSubnet1S.data ∈ recommendList cdkCode ∧ recSubnet2S.data ∈ recommendList cdkCode ∧
        recSubnet3S.data ∈ recommendList cdkCode) ↔
      includesL cdkCode (subnetKeyS.data) = true) ∧
    ((recIpS.data ∈ recommendList cdkCode) ↔
      (includesL cdkCode (cidrKeyS.data) || includesL cdkCode (ipAddressKeyS.data)) = true) ∧
    (recommendList cdkCode = [recBasicS.data] ↔
      (includesL cdkCode (subnetKeyS.data) = false ∧
        (includesL cdkCode (cidrKeyS.data) || includesL cdkCode (ipAddressKeyS.data)) = false)) ∧
    (recSubnet1S.data ∈ recommendList (("my subnet config").data) ∧
      recSubnet2S.data ∈ recommendList (("my subnet config").data) ∧
      recSubnet3S.data ∈ recommendList (("my subnet config").data) ∧
      recIpS.data ∉ recommendList (("my subnet config").data)) := by
  refine ⟨?_, ?_, ?_, by decide⟩ <;>
    cases hs : includesL cdkCode (subnetKeyS.data) <;>
    cases hip : (includesL cdkCode (cidrKeyS.data) || includesL cdkCode (ipAddressKeyS.data)) <;>
    simp only [recommendList, hs, hip] <;> decide

/-- C6: whenever the explicit `fs.access` check of `analyze-vpc` fails, the
handler returns a result with `isError: true` whose single text block names
the inaccessible path, instead of raising a fault. -/
theorem claim_c6_access_error (filePath content e : List Char)
    (access : Except (List Char) Unit) (h : access = Except.error e) :
    (analyzeVpcTool filePath access content).isError = true ∧
    (analyzeVpcTool filePath access content).content =
      [textBlock (accessErrS.data ++ filePath)] := by
  subst h
  exact ⟨rfl, rfl⟩

/-- Witness for C6 at a concrete failed access check. -/
theorem claim_c6_witness :
    (analyzeVpcTool (("/tmp/missing.ts").data)
        (Except.error (("EACCES").data)) (("").data)).isError = true ∧
    (analyzeVpcTool (("/tmp/missing.ts").data)
        (Except.error (("EACCES").data)) (("").data)).content =
      [textBlock (accessErrS.data ++ ("/tmp/missing.ts").data)] :=
  claim_c6_access_error (("/tmp/missing.ts").data) (("").data) (("EACCES").data)
    (Except.error (("EACCES").data)) rfl

/-- Fence opener `"```typescript\n"` of the documentation template. -/
def fenceOpenS : String := "```typescript\n"

/-- Fence closer `"\n```"` of the documentation template. -/
def fenceCloseS : String := "\n```"

/-- The fixed testing checklist of the documentation template. -/
def checklistS : String := "1. Deploy the migrated infrastructure to a test environment\n2. Verify network connectivity between subnets\n3. Validate that internet connectivity works as expected\n4. Check that any resources depending on the VPC can still connect properly"

/-- The fixed reference links of the documentation template. -/
def refsS : String := "- [AWS CDK VpcV2 API Reference](https://docs.aws.amazon.com/cdk/api/v2/docs/aws-cdk-lib.aws_ec2.Vpc.html)\n- [AWS CDK Migration Guide](https://docs.aws.amazon.com/cdk/v2/guide/migrating-v2.html)"

/-- Header between the changes section and the original-code fence. -/
def origHdrS : String := "\n\n## Migration Details\n\n### Original Code\n"

/-- Header between the original-code fence and the migrated-code fence. -/
def midHdrS : String := "\n\n### Migrated Code\n"

/-- Header of the testing section. -/
def testHdrS : String := "\n\n## Testing Recommendations\n\n"

/-- Header of the references section. -/
def refHdrS : String := "\n\n## References\n\n"

set_option maxRecDepth 8192 in
/-- C7: the markdown produced by `generate-migration-docs` contains, for every
pair of inputs, the original and the migrated snippets verbatim inside fenced
```typescript code blocks, together with the fixed testing checklist and the
fixed reference links of the static template. -/
theorem claim_c7_document (originalCode migratedCode : List Char) :
    HasSub (documentMd originalCode migratedCode)
      (fenceOpenS.data ++ (originalCode ++ fenceCloseS.data)) ∧
    HasSub (documentMd originalCode migratedCode)
      (fenceOpenS.data ++ (migratedCode ++ fenceCloseS.data)) ∧
    HasSub (documentMd originalCode migratedCode) (checklistS.data) ∧
    HasSub (documentMd originalCode migratedCode) (refsS.data) := by
  have hs2 : docT2S.data = origHdrS.data ++ fenceOpenS.data := by decide
  have hs3 : docT3S.data = fenceCloseS.data ++ (midHdrS.data ++ fenceOpenS.data) := by decide
  have hs4 : docT4S.data = fenceCloseS.data ++ (testHdrS.data ++ (checklistS.data ++
      (refHdrS.data ++ (refsS.data ++ ['\n'])))) := by decide
  unfold documentMd
  generalize List.intercalate ['\n']
    ((changesList originalCode migratedCode).map (fun c => ("- ").data ++ c)) = cj
  refine ⟨⟨docT1S.data ++ (cj ++ origHdrS.data),
      midHdrS.data ++ (fenceOpenS.data ++ (migratedCode ++ docT4S.data)), ?_⟩,
    ⟨docT1S.data ++ (cj ++ (docT2S.data ++ (originalCode ++
        (fenceCloseS.data ++ midHdrS.data)))),
      testHdrS.data ++ (checklistS.data ++ (refHdrS.data ++ (refsS.data ++ ['\n']))), ?_⟩,
    ⟨docT1S.data ++ (cj ++ (docT2S.data ++ (originalCode ++ (docT3S.data ++
        (migratedCode ++ (fenceCloseS.data ++ testHdrS.data)))))),
      refHdrS.data ++ (refsS.data ++ ['\n']), ?_⟩,
    ⟨docT1S.data ++ (cj ++ (docT2S.data ++ (originalCode ++ (docT3S.data ++
        (migratedCode ++ (fenceCloseS.data ++ (testHdrS.data ++
          (checklistS.data ++ refHdrS.data)))))))),
      ['\n'], ?_⟩⟩ <;>
    (simp only [hs2, hs3, hs4]; simp [List.append_assoc])

/-- C8: on the file content `"new Vpc(this, 'X', { cidr: '10.0.0.0/16' })"`
`analyze-vpc` reports exactly one construct match. -/
theorem claim_c8_single_match :
    (analyzeContent (("vpc-stack.ts").data)
      (("new Vpc(this, \x27X\x27, \x7b cidr: \x2710.0.0.0/16\x27 \x7d)").data)).vpcConstructs = 1 ∧
    (analyzeContent (("vpc-stack.ts").data)
      (("new Vpc(this, \x27X\x27, \x7b cidr: \x2710.0.0.0/16\x27 \x7d)").data)).matchList.length = 1 := by
  constructor <;> decide

/-- C9: the filesystem-free handlers (`recommend`, `validate`, `document`)
are pure functions of their declared string inputs in this embedding, so two
runs on the same inputs produce identical outputs and repeated requests are
independent and idempotent. -/
theorem claim_c9_deterministic (originalCode migratedCode cdkCode : List Char) :
    recommendList cdkCode = recommendList cdkCode ∧
    (validateStatus originalCode migratedCode, validateIssues originalCode migratedCode,
        validateRecommendations originalCode migratedCode) =
      (validateStatus originalCode migratedCode, validateIssues originalCode migratedCode,
        validateRecommendations originalCode migratedCode) ∧
    documentMd originalCode migratedCode = documentMd originalCode migratedCode :=
  ⟨rfl, rfl, rfl⟩

/-- C10: the cidr- and IPAM-gated replacements of `refactor-vpc` search for
the literal texts `"ipAddresses: IpAddresses.cidr('$1')"` and
`"ipAddresses: IpAddresses.awsIpamAllocation('$1')"` (with a literal `$1`),
so on any `cdkCode` not containing those exact texts both branches are
identities — even when `migrationApproach` mentions `cidr` or `IPAM` — and
the output equals `cdkCode` up to the Subnet-gated substitution and the
conditionally prepended import block. -/
theorem claim_c10_refactor_frame (cdkCode migrationApproach : List Char)
    (h1 : ¬ HasSub cdkCode (cidrSearchS.data))
    (h2 : ¬ HasSub cdkCode (ipamSearchS.data)) :
    replaceFirst (cidrSearchS.data) (cidrReplaceS.data)
        (if includesL migrationApproach (subnetApproachKeyS.data)
          then subnetReplace cdkCode else cdkCode) =
      (if includesL migrationApproach (subnetApproachKeyS.data)
        then subnetReplace cdkCode else cdkCode) ∧
    replaceFirst (ipamSearchS.data) (ipamReplaceS.data)
        (if includesL migrationApproach (subnetApproachKeyS.data)
          then subnetReplace cdkCode else cdkCode) =
      (if includesL migrationApproach (subnetApproachKeyS.data)
        then subnetReplace cdkCode else cdkCode) ∧
    refactorVpc cdkCode migrationApproach =
      addImports (if includesL migrationApproach (subnetApproachKeyS.data)
        then subnetReplace cdkCode else cdkCode) := by
  have hc : ¬ HasSub (if includesL migrationApproach (subnetApproachKeyS.data)
      then subnetReplace cdkCode else cdkCode) (cidrSearchS.data) := by
    by_cases hg : includesL migrationApproach (subnetApproachKeyS.data)
    · rw [if_pos hg]
      exact srf_preserves (cidrSearchS.data) (by decide) (by decide) (by decide)
        (by decide) (by decide) (by decide) cdkCode.length cdkCode h1
    · rw [if_neg hg]; exact h1
  have hi : ¬ HasSub (if includesL migrationApproach (subnetApproachKeyS.data)
      then subnetReplace cdkCode else cdkCode) (ipamSearchS.data) := by
    by_cases hg : includesL migrationApproach (subnetApproachKeyS.data)
    · rw [if_pos hg]
      exact srf_preserves (ipamSearchS.data) (by decide) (by decide) (by decide)
        (by decide) (by decide) (by decide) cdkCode.length cdkCode h2
    · rw [if_neg hg]; exact h2
  have e1 := @replaceFirst_no_occ _ (cidrReplaceS.data) _ hc
  have e2 := @replaceFirst_no_occ _ (ipamReplaceS.data) _ hi
  refine ⟨e1, e2, ?_⟩
  unfold refactorVpc
  by_cases hgc : includesL migrationApproach (cidrKeyS.data) <;>
    by_cases hgi : includesL migrationApproach (ipamApproachKeyS.data) <;>
    simp [hgc, hgi, e1, e2]

/-- Witness for C10 at a concrete code lacking both literal search strings. -/
theorem claim_c10_witness :
    (¬ HasSub (("const vpc = new Vpc(app);").data) (cidrSearchS.data)) ∧
    (¬ HasSub (("const vpc = new Vpc(app);").data) (ipamSearchS.data)) ∧
    refactorVpc (("const vpc = new Vpc(app);").data) (("apply cidr and IPAM approach").data) =
      addImports (if includesL (("apply cidr and IPAM approach").data) (subnetApproachKeyS.data)
        then subnetReplace (("const vpc = new Vpc(app);").data)
        else (("const vpc = new Vpc(app);").data)) :=
  ⟨by decide, by decide,
    (claim_c10_refactor_frame (("const vpc = new Vpc(app);").data)
      (("apply cidr and IPAM approach").data) (by decide) (by decide)).2.2⟩
